import Mathlib

/-!
Verification development for the Canvas-Agent repository: a shallow
embedding of the Cross-Source Aggregation and Temporal Curation Engine
(src/planners/daily-canvas-planner.py and
src/study_guides/auto-study-guide-generator.py) together with proofs
settling the specification claims about it.

Modelling conventions:
  * Python strings are `List Char` (named `Str` below); Python string
    concatenation, substring tests and lowercasing are embedded directly.
  * Instants are `Int` seconds since the Unix epoch.  The code converts
    UTC instants to the America/Los_Angeles zone with `astimezone`, which
    never changes the instant, only its wall-clock rendering; all the
    comparisons in the code compare aware datetimes, i.e. instants, so
    the zone conversion is the identity on this model.  The zone offset
    is modelled as constant (no daylight-saving discontinuity inside the
    window), so adding `timedelta(days=3, hours=12)` to an aware `now`
    adds 302400 seconds to the instant.
  * A network call is a value of `Resp α`: either a status code with a
    decoded body, or `exn` for a raised error (connection failure, bad
    JSON, ...).  The world is passed in as data: every record carries the
    responses the code would fetch for it.
  * Dictionaries with optional keys become structures of `Option` fields;
    `d.get(k, default)` is `field.getD default`; a Python truthiness test
    on a string field (`if s:`) is `truthyStr` (present and non-empty).
-/

abbrev Str := List Char

/-- Python truthiness of an optional string: `if s:` is true exactly when
the value is present and non-empty. -/
def truthyStr : Option Str → Bool
  | none => false
  | some s => !s.isEmpty

/-- Lowercasing, as Python `str.lower()` on the ASCII range. -/
def toLowerStr (s : Str) : Str := s.map Char.toLower

/-- Bool test that `needle` is a prefix of `hay`. -/
def isPrefB : Str → Str → Bool
  | [], _ => true
  | _ :: _, [] => false
  | a :: as, b :: bs => a == b && isPrefB as bs

/-- Bool test that `needle` occurs contiguously in `hay`: the Python
substring test `needle in hay`. -/
def substrB (needle : Str) : Str → Bool
  | [] => isPrefB needle []
  | hay@(_ :: t) => isPrefB needle hay || substrB needle t

/-- The whitespace class of the regex `\s` on the ASCII range. -/
def isWs (c : Char) : Bool :=
  c = ' ' || c = '\t' || c = '\n' || c = '\r' || c = '\x0b' || c = '\x0c'

/-- One pass of `re.sub('<[^<]+?>', '', s)`: the state is `none` outside a
candidate tag and `some buf` after an unmatched `<`, where `buf` holds the
characters read since that `<` in reverse.  A candidate closes at the
first `>` preceded by at least one non-`<` character; a second `<` aborts
the candidate (the regex cannot match across it), emitting the buffered
text, exactly as the regex engine resumes after a failed match. -/
def stripTagsAux : Option Str → Str → Str
  | none, [] => []
  | none, c :: rest =>
      if c = '<' then stripTagsAux (some []) rest
      else c :: stripTagsAux none rest
  | some buf, [] => '<' :: buf.reverse
  | some buf, c :: rest =>
      if c = '<' then ('<' :: buf.reverse) ++ stripTagsAux (some []) rest
      else if c = '>' && !buf.isEmpty then stripTagsAux none rest
      else stripTagsAux (some (c :: buf)) rest

def stripTags (s : Str) : Str := stripTagsAux none s

/-- Collapse whitespace runs and strip the ends: the composition of
`re.sub(r"\s+", " ", s)` with `str.strip()`.  `started` records whether a
word character was already emitted (so leading whitespace is dropped) and
`pend` that a separating space is owed before the next word character;
trailing whitespace emits nothing. -/
def cleanWS (started pend : Bool) : Str → Str
  | [] => []
  | c :: rest =>
      if isWs c then cleanWS started started rest
      else if pend then ' ' :: c :: cleanWS true false rest
      else c :: cleanWS true false rest

/-- The `clean_html` helper shared by both source files: remove HTML tags
with `re.sub('<[^<]+?>', '', text)`, collapse whitespace runs to one
space and strip the ends; falsy input returns the empty string. -/
def clean_html (s : Str) : Str :=
  if s.isEmpty then [] else cleanWS false false (stripTags s)

/-- CPython strptime matches digits with the str-pattern `\d`, which
accepts any Unicode decimal digit (category Nd), and converts the
captured text with `int()`, which assigns those digits their decimal
values.  Nd digits sit in runs of ten consecutive code points valued
0 through 9; this table lists the zero of every such run, enumerated
from the running CPython interpreter (660 digits, 66 runs). -/
def digitDecadeStarts : List Nat :=
  [48, 1632, 1776, 1984, 2406, 2534, 2662, 2790, 2918, 3046, 3174, 3302,
   3430, 3558, 3664, 3792, 3872, 4160, 4240, 6112, 6160, 6470, 6608, 6784,
   6800, 6992, 7088, 7232, 7248, 42528, 43216, 43264, 43472, 43504, 43600,
   44016, 65296, 66720, 68912, 69734, 69872, 69942, 70096, 70384, 70736,
   70864, 71248, 71360, 71472, 71904, 72016, 72784, 73040, 73120, 92768,
   92864, 93008, 120782, 120792, 120802, 120812, 120822, 123200, 123632,
   125264, 130032]

def digitLookup (n : Nat) : List Nat → Option Nat
  | [] => none
  | r :: rest => if r ≤ n ∧ n ≤ r + 9 then some (n - r) else digitLookup n rest

/-- One decimal digit as strptime reads it: any Unicode decimal digit,
with its decimal value. -/
def digitVal (c : Char) : Option Nat := digitLookup c.toNat digitDecadeStarts

/-- A field of exactly four digits (the `%Y` pattern of CPython strptime). -/
def parse4 : Str → Option (Nat × Str)
  | a :: b :: c :: d :: rest =>
      match digitVal a, digitVal b, digitVal c, digitVal d with
      | some x, some y, some z, some w => some (1000 * x + 100 * y + 10 * z + w, rest)
      | _, _, _, _ => none
  | _ => none

/-- ASCII character-class test, for the literal digit classes of the
strptime field patterns (the classes [0-9] ranges are code-point ranges,
so only ASCII digits fall in them). -/
def inCl (lo hi c : Char) : Bool := lo ≤ c ∧ c ≤ hi

/-- The value of an ASCII digit character. -/
def ascVal (c : Char) : Nat := c.toNat - 48

/-!
The CPython strptime patterns for the numeric fields of this format are
alternations whose alternatives span one or two characters, with every
two-character alternative listed before the one-character one:

  %m  `1[0-2]|0[1-9]|[1-9]`
  %d  `3[0-1]|[1-2]\d|0[1-9]|[1-9]| [1-9]`
  %H  `2[0-3]|[0-1]\d|\d`
  %M  `[0-5]\d|\d`
  %S  `6[0-1]|[0-5]\d|\d`

Each field is followed in the format by a literal separator (hyphen,
colon, T or Z), and every second-position class above accepts only digit
characters.  So the alternation is deterministic: when the character
after the first one is a digit, only a two-character alternative can
complete the match (a one-character match would leave that digit facing
the separator, which is never a digit, and backtracking cannot recover);
when it is not a digit, only the one-character alternative can.  Each
field parser below implements its alternatives under that rule: `\d` is
any Unicode decimal digit (`digitVal`), the bracket classes are ASCII,
and the captured text is valued as `int()` values it. -/

def parseMonth : Str → Option (Nat × Str)
  | [] => none
  | [c1] => if inCl '1' '9' c1 then some (ascVal c1, []) else none
  | c1 :: c2 :: rest =>
      match digitVal c2 with
      | some _ =>
          if c1 = '1' ∧ inCl '0' '2' c2 then some (10 + ascVal c2, rest)
          else if c1 = '0' ∧ inCl '1' '9' c2 then some (ascVal c2, rest)
          else none
      | none => if inCl '1' '9' c1 then some (ascVal c1, c2 :: rest) else none

def parseDay : Str → Option (Nat × Str)
  | [] => none
  | [c1] => if inCl '1' '9' c1 then some (ascVal c1, []) else none
  | c1 :: c2 :: rest =>
      match digitVal c2 with
      | some v =>
          if c1 = '3' ∧ inCl '0' '1' c2 then some (30 + ascVal c2, rest)
          else if inCl '1' '2' c1 then some (10 * ascVal c1 + v, rest)
          else if c1 = '0' ∧ inCl '1' '9' c2 then some (ascVal c2, rest)
          else if c1 = ' ' ∧ inCl '1' '9' c2 then some (ascVal c2, rest)
          else none
      | none => if inCl '1' '9' c1 then some (ascVal c1, c2 :: rest) else none

def parseHour : Str → Option (Nat × Str)
  | [] => none
  | [c1] => (digitVal c1).map fun v => (v, [])
  | c1 :: c2 :: rest =>
      match digitVal c2 with
      | some v =>
          if c1 = '2' ∧ inCl '0' '3' c2 then some (20 + ascVal c2, rest)
          else if inCl '0' '1' c1 then some (10 * ascVal c1 + v, rest)
          else none
      | none => (digitVal c1).map fun v => (v, c2 :: rest)

def parseMin : Str → Option (Nat × Str)
  | [] => none
  | [c1] => (digitVal c1).map fun v => (v, [])
  | c1 :: c2 :: rest =>
      match digitVal c2 with
      | some v =>
          if inCl '0' '5' c1 then some (10 * ascVal c1 + v, rest)
          else none
      | none => (digitVal c1).map fun v => (v, c2 :: rest)

def parseSec : Str → Option (Nat × Str)
  | [] => none
  | [c1] => (digitVal c1).map fun v => (v, [])
  | c1 :: c2 :: rest =>
      match digitVal c2 with
      | some v =>
          if c1 = '6' ∧ inCl '0' '1' c2 then some (60 + ascVal c2, rest)
          else if inCl '0' '5' c1 then some (10 * ascVal c1 + v, rest)
          else none
      | none => (digitVal c1).map fun v => (v, c2 :: rest)

/-- An uncased literal of the format (the hyphen and the colon): under
the `re.IGNORECASE` flag strptime compiles with, these still match only
themselves. -/
def expectCh (c : Char) : Str → Option Str
  | [] => none
  | x :: rest => if x = c then some rest else none

/-- A cased literal of the format: strptime compiles the format with
`re.IGNORECASE`, so the literals T and Z each match their two case
forms — and, checked against the running interpreter, no further
character: no third Unicode character case-folds to t or to z. -/
def expectCI (up lo : Char) : Str → Option Str
  | [] => none
  | x :: rest => if x = up ∨ x = lo then some rest else none

def isLeap (y : Nat) : Bool := y % 4 = 0 && (y % 100 ≠ 0 || y % 400 = 0)

def daysInMonth (y m : Nat) : Nat :=
  if m = 2 then (if isLeap y then 29 else 28)
  else if m = 4 ∨ m = 6 ∨ m = 9 ∨ m = 11 then 30
  else 31

/-- Days from 1970-01-01 to year/month/day (proleptic Gregorian), for
years at least 1: the civil-from-days algorithm, carried out in `Nat`
before shifting by the epoch offset. -/
def epochDays (y m d : Nat) : Int :=
  let yAdj : Nat := if m ≤ 2 then y - 1 else y
  let era : Nat := yAdj / 400
  let yoe : Nat := yAdj % 400
  let mp : Nat := (m + 9) % 12
  let doy : Nat := (153 * mp + 2) / 5 + d - 1
  let doe : Nat := yoe * 365 + yoe / 4 - yoe / 100 + doy
  (era * 146097 + doe : Int) - 719468

def epochSeconds (y m d h mi s : Nat) : Int :=
  epochDays y m d * 86400 + (h * 3600 + mi * 60 + s : Nat)

/-- `datetime.strptime(s, "%Y-%m-%dT%H:%M:%SZ")` read as a UTC instant:
the instant in epoch seconds when the whole string matches and the fields
make a valid datetime, `none` when strptime or the datetime constructor
raises `ValueError` (the callers catch both identically).  strptime
compiles the format into a regex with `re.IGNORECASE` and Unicode `\d`,
so the T and Z literals also match their lowercase forms and the digit
fields accept any Unicode decimal digit.  The trailing condition is what
the datetime constructor still rejects after a regex match: year 0, a
day beyond the month, and the leap seconds 60 and 61 that the `%S`
pattern admits; the regex itself caps the month at 12, the hour at 23
and the minute at 59. -/
def parseCanvasDate (s : Str) : Option Int := do
  let (y, r1) ← parse4 s
  let r2 ← expectCh '-' r1
  let (mo, r3) ← parseMonth r2
  let r4 ← expectCh '-' r3
  let (d, r5) ← parseDay r4
  let r6 ← expectCI 'T' 't' r5
  let (h, r7) ← parseHour r6
  let r8 ← expectCh ':' r7
  let (mi, r9) ← parseMin r8
  let r10 ← expectCh ':' r9
  let (sec, r11) ← parseSec r10
  let r12 ← expectCI 'Z' 'z' r11
  if r12 = [] ∧ 1 ≤ y ∧ d ≤ daysInMonth y mo ∧ sec ≤ 59 then
    some (epochSeconds y mo d h mi sec)
  else none

/-- Outcome of one HTTP call: a status code with the decoded body, or a
raised error (connection failure, malformed JSON, ...). -/
inductive Resp (α : Type) where
  | ok (status : Nat) (body : α)
  | exn
deriving DecidableEq

/-- The normalized work-item record both retrieval methods of
`get_canvas_all_items` build (daily-canvas-planner.py, lines 109-116 and
154-161). -/
structure Item where
  name : Str
  due_at : Option Str
  points_possible : Int
  course_name : Str
  html_url : Str
  description : Str
deriving DecidableEq

/-- One record of the planner API response (method 1): the fields the
collector reads from `item` and its `plannable` sub-dictionary. -/
structure PlannerItem where
  title : Option Str
  plannable_date : Option Str
  points_possible : Option Int
  context_name : Option Str
  html_url : Option Str
  description : Option Str
deriving DecidableEq

/-- One record of a per-course assignments response (method 2). -/
structure RawAssignment where
  name : Option Str
  due_at : Option Str
  points_possible : Option Int
  html_url : Option Str
  description : Option Str
deriving DecidableEq

/-- One course of the courses response, carrying the response the
collector would receive for its assignments call. -/
structure Course where
  has_id : Bool
  workflow_state : Option Str
  name : Option Str
  assignmentsResp : Resp (List RawAssignment)
deriving DecidableEq

/-- Normalization of a planner record, lines 109-116. -/
def plannerToItem (p : PlannerItem) : Item where
  name := p.title.getD "Unnamed".data
  due_at := p.plannable_date
  points_possible := p.points_possible.getD 0
  course_name := p.context_name.getD "Unknown".data
  html_url := p.html_url.getD "#".data
  description := p.description.getD []

/-- Normalization of an assignments-API record, lines 154-161. -/
def assignmentToItem (c : Course) (a : RawAssignment) : Item where
  name := a.name.getD "Unnamed".data
  due_at := a.due_at
  points_possible := a.points_possible.getD 0
  course_name := c.name.getD "Unknown".data
  html_url := a.html_url.getD "#".data
  description := a.description.getD []

/-- The identity key `f"{assignment['name']}_{assignment['due_at']}"`
(lines 119 and 164): the name and the raw due string joined by an
underscore, a missing due date rendering as the four characters None. -/
def itemKeyOf (it : Item) : Str :=
  it.name ++ '_' :: (match it.due_at with | none => "None".data | some s => s)

/-- The deduplication state of one `get_canvas_all_items` call: the
`seen_items` set (as a list of keys) and the `all_items` accumulator. -/
structure DState where
  seen : List Str
  items : List Item
deriving DecidableEq

/-- Lines 119-122 and 164-168: append the record only when its key is
new, first-seen wins. -/
def addIfNew (st : DState) (it : Item) : DState :=
  if itemKeyOf it ∈ st.seen then st
  else ⟨itemKeyOf it :: st.seen, st.items ++ [it]⟩

/-- Method 1, lines 93-122: the planner call contributes its items
through the shared deduplication state only on a 200 response. -/
def plannerPhase (pstatus : Nat) (pbody : List PlannerItem) (st : DState) : DState :=
  if pstatus = 200 then
    pbody.foldl (fun s p => addIfNew s (plannerToItem p)) st
  else st

/-- The body of the course loop, lines 133-171: a course without an id or
in a completed/deleted workflow state is skipped before its assignments
call happens; a raised assignments call propagates as the error of the
surrounding try; a non-200 assignments response contributes nothing;
otherwise every assignment with a truthy `due_at` is deduplicated into
the state. -/
def courseStep (st : DState) (c : Course) : Except Unit DState :=
  if !c.has_id then .ok st
  else if (c.workflow_state.getD []) ∈ ["completed".data, "deleted".data] then .ok st
  else
    match c.assignmentsResp with
    | .exn => .error ()
    | .ok status body =>
        .ok <|
          if status = 200 then
            (body.filter fun a => truthyStr a.due_at).foldl
              (fun s a => addIfNew s (assignmentToItem c a)) st
          else st

/-- Method 2: the course loop itself. -/
def methodB (st : DState) : List Course → Except Unit DState
  | [] => .ok st
  | c :: rest =>
      match courseStep st c with
      | .error e => .error e
      | .ok st₂ => methodB st₂ rest

/-- The surrounding `try`: a raised sub-call turns the whole result into
the empty list (line 174-176). -/
def catchEmpty (r : Except Unit (List Item)) : List Item :=
  match r with
  | .ok items => items
  | .error _ => []

/-- `get_canvas_all_items` (lines 86-176): planner view then per-course
enumeration, both deduplicated through one `seen_items` set; any raised
sub-call is caught by the single surrounding try, which returns the empty
list for the whole instance; a non-200 response only skips its own
sub-call. -/
def get_canvas_all_items (planner : Resp (List PlannerItem))
    (courses : Resp (List Course)) : List Item :=
  catchEmpty <|
    match planner with
    | .exn => .error ()
    | .ok pstatus pbody =>
        match courses with
        | .exn => .error ()
        | .ok cstatus cbody =>
            if cstatus = 200 then
              (methodB (plannerPhase pstatus pbody ⟨[], []⟩) cbody).map DState.items
            else .ok (plannerPhase pstatus pbody ⟨[], []⟩).items

/-- One configured Canvas instance, as the pair of responses its two
retrieval methods would receive. -/
structure CanvasInstance where
  planner : Resp (List PlannerItem)
  courses : Resp (List Course)
deriving DecidableEq

/-- The aggregation loop of `main` (lines 429-440): each instance is
collected independently and the results are concatenated. -/
def collect_all (instances : List CanvasInstance) : List Item :=
  instances.foldl (fun acc i => acc ++ get_canvas_all_items i.planner i.courses) []

/-- The per-run aggregate never holds two records with the same identity
key. -/
def NoDupKeys (l : List Item) : Prop := (l.map itemKeyOf).Nodup

instance (l : List Item) : Decidable (NoDupKeys l) := by
  unfold NoDupKeys; infer_instance

/-- A work item enriched by the temporal classifier with its parsed due
instant (the `due_datetime_parsed` field attached on line 210). -/
structure TItem where
  item : Item
  due_parsed : Int
deriving DecidableEq

/-- Stable ascending insertion by parsed due instant: an element moves
past exactly the earlier elements with a strictly smaller key, so equal
keys keep their original order, as `list.sort` with a key function. -/
def insertByDue (t : TItem) : List TItem → List TItem
  | [] => [t]
  | h :: rest =>
      if h.due_parsed < t.due_parsed then h :: insertByDue t rest
      else t :: h :: rest

def sortByDue (l : List TItem) : List TItem := l.foldr insertByDue []

/-- The duration `timedelta(days=3, hours=12)` in seconds. -/
def windowSeconds : Int := 302400

/-- The loop body of `filter_due_next_3_days` (lines 192-214): skip a
falsy `due_at`, parse the fixed UTC format (a failure only drops the
item and the loop continues), convert to Pacific (instant-preserving),
drop strictly past items, keep items up to the cutoff instant
`now + 3d12h` inclusive. -/
def dueFilterStep (now : Int) (a : Item) : Option TItem :=
  match a.due_at with
  | none => none
  | some s =>
      if s.isEmpty then none
      else
        match parseCanvasDate s with
        | none => none
        | some d =>
            if d < now then none
            else if d ≤ now + windowSeconds then some ⟨a, d⟩
            else none

/-- `filter_due_next_3_days` (lines 178-226): the loop body applied to
every record in order, then a stable ascending sort by due instant. -/
def filter_due_next_3_days (now : Int) (assignments : List Item) : List TItem :=
  sortByDue (assignments.filterMap (dueFilterStep now))

/-- The phrase set of `is_major_test` (line 327). -/
def major_keywords : List Str :=
  ["midterm".data, "final exam".data, "final test".data, "midterm exam".data]

/-- `is_major_test` (lines 321-341): lowercase the name and description,
then first match wins among the keyword set, the exam-with-high-points
rule and the proctoring-tool indicators. -/
def is_major_test (a : Item) : Bool :=
  let name := toLowerStr a.name
  let description := toLowerStr a.description
  if major_keywords.any (fun k => substrB k name) then true
  else if substrB "exam".data name && decide (a.points_possible ≥ 50) then true
  else if substrB "respondus".data description
       || substrB "lockdown browser".data description then true
  else false

/-- One item of a content module (auto-study-guide-generator.py), with the
responses the curator would receive for the fetches this item triggers. -/
structure ModuleItem where
  type : Option Str
  title : Option Str
  url : Option Str
  html_url : Option Str
  page_url : Option Str
  pageResp : Resp (Option Str × Option Str)
  asgResp : Resp (Option Str × Option Str)
  discResp : Resp (Option Str × Option Str)
deriving DecidableEq

/-- A content module as returned by the modules call: name, raw unlock
timestamp and its items. -/
structure ContentModule where
  name : Option Str
  unlock_at : Option Str
  items : List ModuleItem
deriving DecidableEq

/-- The denylist of non-content module names (lines 51-62). -/
def exclude_keywords : List Str :=
  ["course essentials".data, "microsoft teams".data, "library research".data,
   "library guide".data, "instruction guide".data, "getting started".data,
   "syllabus".data, "resources".data, "how to".data, "orientation".data]

/-- The week/chapter lexical markers of the no-timestamp fallback
(line 95). -/
def weekMarkers : List Str :=
  ["week".data, "chapter".data, "ch ".data, "module".data]

/-- The lowercased module name contains a denylist term. -/
def denylistedName (m : ContentModule) : Bool :=
  exclude_keywords.any fun k => substrB k (toLowerStr (m.name.getD []))

/-- The lowercased module name contains a week/chapter/module marker. -/
def hasWeekMarker (m : ContentModule) : Bool :=
  weekMarkers.any fun k => substrB k (toLowerStr (m.name.getD []))

/-- The per-module inclusion decision of `get_modules_before_exam`
(lines 69-96): a denylisted name is skipped outright; a truthy
`unlock_at` is included exactly when it parses and the instant is
strictly before the exam instant (a parse failure passes, excluding the
module); a falsy `unlock_at` falls back to the name markers. -/
def moduleIncluded (examDate : Int) (m : ContentModule) : Bool :=
  if denylistedName m then false
  else if truthyStr m.unlock_at then
    match parseCanvasDate (m.unlock_at.getD []) with
    | some d => decide (d < examDate)
    | none => false
  else hasWeekMarker m

/-- `get_modules_before_exam` (lines 42-102): a raised call or a non-200
response yields the empty list; otherwise the modules pass through the
per-module inclusion policy in order. -/
def get_modules_before_exam (examDate : Int)
    (resp : Resp (List ContentModule)) : List ContentModule :=
  match resp with
  | .exn => []
  | .ok status mods =>
      if status = 200 then mods.filter (moduleIncluded examDate) else []

/-- `get_page_content` (lines 104-123) reduced to its response: the title
(defaulted) and cleaned body on a 200 response, `none` on any other
status or a raised call. -/
def get_page_content (resp : Resp (Option Str × Option Str)) : Option (Str × Str) :=
  match resp with
  | .exn => none
  | .ok status body =>
      if status = 200 then some (body.1.getD "Untitled".data, clean_html (body.2.getD []))
      else none

/-- One curated output record (type, module name, title, cleaned text). -/
structure ContentOut where
  ctype : Str
  moduleName : Str
  title : Str
  content : Str
deriving DecidableEq

/-- Python `a or b` on a string: the first operand when truthy, else the
second. -/
def pyOrStr (a : Option Str) (b : Str) : Str :=
  match a with
  | some s => if s.isEmpty then b else s
  | none => b

/-- The per-item body of the module loop of `get_all_content_before_exam`
(lines 250-304): a Page with a truthy url whose fetch succeeds with
non-empty cleaned body is emitted; an Assignment is fetched only behind a
truthy `page_url` and emitted when its cleaned description is non-empty;
a Discussion is emitted when its cleaned message is non-empty; any raised
fetch is swallowed and emits nothing. -/
def processItem (moduleName : Str) (it : ModuleItem) : List ContentOut :=
  let itemTitle := it.title.getD "Item".data
  if it.type = some "Page".data then
    let pageUrl := pyOrStr it.url (it.html_url.getD [])
    if pageUrl.isEmpty then []
    else
      match get_page_content it.pageResp with
      | some pc => if pc.2.isEmpty then [] else [⟨"Page".data, moduleName, pc.1, pc.2⟩]
      | none => []
  else if it.type = some "Assignment".data then
    if truthyStr it.page_url then
      match it.asgResp with
      | .exn => []
      | .ok status body =>
          if status = 200 then
            let d := clean_html (body.2.getD [])
            if d.isEmpty then [] else [⟨"Assignment".data, moduleName, body.1.getD itemTitle, d⟩]
          else []
    else []
  else if it.type = some "Discussion".data then
    match it.discResp with
    | .exn => []
    | .ok status body =>
        if status = 200 then
          let msg := clean_html (body.2.getD [])
          if msg.isEmpty then [] else [⟨"Discussion".data, moduleName, body.1.getD itemTitle, msg⟩]
        else []
  else []

/-- `get_all_content_before_exam` (lines 231-307): curate the modules,
then walk every included module in order appending each fetchable item;
no content-level deduplication happens on this path (the hard-coded
`quiz_questions = []` on line 243 is never consulted). -/
def get_all_content_before_exam (examDate : Int)
    (modulesResp : Resp (List ContentModule)) : List ContentOut :=
  (get_modules_before_exam examDate modulesResp).flatMap fun m =>
    m.items.flatMap (processItem (m.name.getD "Module".data))

/-- One answer option of a quiz question (its `text` field). -/
structure QAnswer where
  text : Option Str
deriving DecidableEq

/-- One raw question of a quiz-submission questions response. -/
structure RawQuestion where
  question_text : Option Str
  question_type : Option Str
  answers : List QAnswer
deriving DecidableEq

/-- One retained entry of `all_quiz_questions` in `get_quiz_questions`. -/
structure QEntry where
  quiz : Str
  question : Str
  qtype : Str
  attempt : Int
deriving DecidableEq

/-- The `answers_info` suffix (lines 201-206): present only for multiple
choice and true/false questions with at least one truthy answer text, and
then the cleaned texts of the first five truthy answers joined. -/
def answersInfo (q : RawQuestion) : Str :=
  if !q.answers.isEmpty
      && (q.question_type.getD [] == "multiple_choice_question".data
          || q.question_type.getD [] == "true_false_question".data) then
    let ts := q.answers.filterMap fun a =>
      match a.text with
      | some s => if s.isEmpty then none else some (clean_html s)
      | none => none
    if ts.isEmpty then []
    else "\n   Options: ".data ++ List.intercalate " | ".data (ts.take 5)
  else []

/-- The question-retention step of `get_quiz_questions` (lines 196-217):
an empty cleaned text is skipped; a question whose cleaned text agrees
with some already-retained entry on the first 100 characters is dropped
(first occurrence wins); otherwise the text with its options suffix is
appended. -/
def addQuestion (quizTitle : Str) (attempt : Int) (acc : List QEntry)
    (q : RawQuestion) : List QEntry :=
  if (clean_html (q.question_text.getD [])).isEmpty then acc
  else if acc.any
      (fun e => e.question.take 100 == (clean_html (q.question_text.getD [])).take 100) then
    acc
  else
    acc ++ [⟨quizTitle, clean_html (q.question_text.getD []) ++ answersInfo q,
      q.question_type.getD [], attempt⟩]

/-- The question loop over one attempt of one quiz, accumulating into the
run-wide `all_quiz_questions` list. -/
def processQuestions (quizTitle : Str) (attempt : Int) (acc : List QEntry)
    (qs : List RawQuestion) : List QEntry :=
  qs.foldl (addQuestion quizTitle attempt) acc

/-- Invariant of the deduplication state: the accumulated records have
pairwise distinct identity keys, and every accumulated key was recorded
in `seen_items`. -/
def KeysOK (st : DState) : Prop :=
  (st.items.map itemKeyOf).Nodup ∧ ∀ it ∈ st.items, itemKeyOf it ∈ st.seen

lemma keysOK_empty : KeysOK ⟨[], []⟩ := by
  constructor
  · simp
  · intro it h
    simp at h

lemma keysOK_addIfNew {st : DState} (h : KeysOK st) (it : Item) :
    KeysOK (addIfNew st it) := by
  obtain ⟨hnd, hseen⟩ := h
  unfold addIfNew
  split
  · exact ⟨hnd, hseen⟩
  · rename_i hnot
    constructor
    · simp only [List.map_append, List.map_cons, List.map_nil]
      rw [List.nodup_append]
      refine ⟨hnd, List.nodup_singleton _, ?_⟩
      intro a ha hb
      rcases List.mem_singleton.mp hb with rfl
      obtain ⟨it₀, hit₀, hkey⟩ := List.mem_map.mp ha
      exact hnot (hkey ▸ hseen it₀ hit₀)
    · intro x hx
      rcases List.mem_append.mp hx with hx | hx
      · exact List.mem_cons_of_mem _ (hseen x hx)
      · rcases List.mem_singleton.mp hx with rfl
        exact List.mem_cons_self _ _

lemma keysOK_foldl {α : Type} (g : α → Item) :
    ∀ (l : List α) (st : DState), KeysOK st →
      KeysOK (l.foldl (fun s x => addIfNew s (g x)) st) := by
  intro l
  induction l with
  | nil => intro st h; exact h
  | cons x rest ih =>
      intro st h
      exact ih _ (keysOK_addIfNew h (g x))

lemma keysOK_courseStep {st st₂ : DState} {c : Course}
    (h : courseStep st c = .ok st₂) (hk : KeysOK st) : KeysOK st₂ := by
  unfold courseStep at h
  split at h
  · cases h; exact hk
  · split at h
    · cases h; exact hk
    · split at h
      · cases h
      · cases h
        split
        · exact keysOK_foldl _ _ _ hk
        · exact hk

lemma keysOK_methodB :
    ∀ (cs : List Course) (st st₂ : DState), methodB st cs = .ok st₂ →
      KeysOK st → KeysOK st₂ := by
  intro cs
  induction cs with
  | nil =>
      intro st st₂ h hk
      simp only [methodB] at h
      cases h
      exact hk
  | cons c rest ih =>
      intro st st₂ h hk
      simp only [methodB] at h
      split at h
      · cases h
      · rename_i st₃ hstep
        exact ih _ _ h (keysOK_courseStep hstep hk)

lemma keysOK_plannerPhase (pstatus : Nat) (pbody : List PlannerItem)
    {st : DState} (hk : KeysOK st) : KeysOK (plannerPhase pstatus pbody st) := by
  unfold plannerPhase
  split
  · exact keysOK_foldl _ _ _ hk
  · exact hk

lemma keysOK_collect (planner : Resp (List PlannerItem))
    (courses : Resp (List Course)) :
    NoDupKeys (get_canvas_all_items planner courses) := by
  unfold get_canvas_all_items NoDupKeys
  cases planner with
  | exn => simp [catchEmpty]
  | ok pstatus pbody =>
      have h₁ : KeysOK (plannerPhase pstatus pbody ⟨[], []⟩) :=
        keysOK_plannerPhase _ _ keysOK_empty
      cases courses with
      | exn => simp [catchEmpty]
      | ok cstatus cbody =>
          simp only
          split
          · cases hmb : methodB (plannerPhase pstatus pbody ⟨[], []⟩) cbody with
            | error e => simp [hmb, Except.map, catchEmpty]
            | ok st₂ =>
                simpa [hmb, Except.map, catchEmpty] using
                  (keysOK_methodB _ _ _ hmb h₁).1
          · exact h₁.1

lemma collect_all_eq :
    ∀ (instances : List CanvasInstance) (acc : List Item),
      instances.foldl (fun a i => a ++ get_canvas_all_items i.planner i.courses) acc
        = acc ++ (instances.map fun i => get_canvas_all_items i.planner i.courses).flatten := by
  intro instances
  induction instances with
  | nil => intro acc; simp
  | cons i rest ih =>
      intro acc
      simp only [List.foldl_cons, List.map_cons, List.flatten_cons, ih, List.append_assoc]

/-- The planner record whose name ends in an underscore-separated token. -/
def pxPlanner : PlannerItem := ⟨some "a_b".data, some "c".data, none, none, none, none⟩

/-- A planner record with a different name and due date whose identity
key nevertheless coincides with the one of `pxPlanner`. -/
def pyPlanner : PlannerItem := ⟨some "a".data, some "b_c".data, none, none, none, none⟩

/-- A source instance whose planner view returns one item and whose
course enumeration returns nothing. -/
def oneItemInstance : CanvasInstance := ⟨.ok 200 [pxPlanner], .ok 200 []⟩

/-- Claim C1, counterexample: two configured instances that both report
the same record leave two records with equal identity keys in the
aggregate, because `seen_items` is local to each `get_canvas_all_items`
call and `main` only concatenates the per-instance results. -/
theorem C1_cross_instance_duplicate :
    (collect_all [oneItemInstance, oneItemInstance]).length = 2 ∧
      ¬ NoDupKeys (collect_all [oneItemInstance, oneItemInstance]) := by
  decide

/-- Claim C1, amended: within one instance the two retrieval methods are
deduplicated through one `seen_items` set, so a single
`get_canvas_all_items` result never holds two records with equal
identity keys; across instances the aggregate is the plain concatenation
of the per-instance results, with no cross-instance deduplication. -/
theorem C1_per_instance_dedup :
    (∀ (planner : Resp (List PlannerItem)) (courses : Resp (List Course)),
        NoDupKeys (get_canvas_all_items planner courses)) ∧
      (∀ instances : List CanvasInstance,
        collect_all instances
          = (instances.map fun i => get_canvas_all_items i.planner i.courses).flatten) := by
  constructor
  · exact keysOK_collect
  · intro instances
    unfold collect_all
    simpa using collect_all_eq instances []

/-- Claim C4, counterexample: the identity key joins name and due string
with an underscore, so the records (name a_b, due c) and (name a, due
b_c) carry the same key and the merge collapses them although both
fields differ. -/
theorem C4_underscore_collision :
    (get_canvas_all_items (.ok 200 [pxPlanner, pyPlanner]) (.ok 200 [])).length = 1 ∧
      (plannerToItem pxPlanner).name ≠ (plannerToItem pyPlanner).name ∧
      (plannerToItem pxPlanner).due_at ≠ (plannerToItem pyPlanner).due_at := by
  decide

/-- Claim C4, amended: two records are merged into one exactly when their
underscore-joined identity keys coincide; equal name and due_at still
merge (their keys agree), but records differing in both fields can also
collapse when the joins happen to coincide. -/
theorem C4_key_equality (p q : PlannerItem) :
    (get_canvas_all_items (.ok 200 [p, q]) (.ok 200 [])).length = 1
      ↔ itemKeyOf (plannerToItem p) = itemKeyOf (plannerToItem q) := by
  by_cases h : itemKeyOf (plannerToItem q) = itemKeyOf (plannerToItem p)
  · simp [get_canvas_all_items, catchEmpty, methodB, plannerPhase, addIfNew,
      Except.map, h]
  · simp [get_canvas_all_items, catchEmpty, methodB, plannerPhase, addIfNew,
      Except.map, h, Ne.symm h]

/-- Preservation of a per-item predicate by the deduplicating append. -/
lemma pred_addIfNew {P : Item → Prop} {st : DState} {it : Item}
    (hst : ∀ x ∈ st.items, P x) (hit : P it) :
    ∀ x ∈ (addIfNew st it).items, P x := by
  unfold addIfNew
  split
  · exact hst
  · intro x hx
    rcases List.mem_append.mp hx with hx | hx
    · exact hst x hx
    · rcases List.mem_singleton.mp hx with rfl
      exact hit

lemma pred_foldl {α : Type} {P : Item → Prop} (g : α → Item) :
    ∀ (l : List α) (st : DState), (∀ x ∈ st.items, P x) → (∀ a ∈ l, P (g a)) →
      ∀ x ∈ (l.foldl (fun s a => addIfNew s (g a)) st).items, P x := by
  intro l
  induction l with
  | nil => intro st hst _; exact hst
  | cons a rest ih =>
      intro st hst hl
      exact ih _ (pred_addIfNew hst (hl a (List.mem_cons_self _ _)))
        (fun b hb => hl b (List.mem_cons_of_mem _ hb))

/-- Every record method 2 adds has a truthy due string. -/
lemma dueOK_courseStep {st st₂ : DState} {c : Course}
    (h : courseStep st c = .ok st₂)
    (hst : ∀ x ∈ st.items, truthyStr x.due_at = true) :
    ∀ x ∈ st₂.items, truthyStr x.due_at = true := by
  unfold courseStep at h
  split at h
  · cases h; exact hst
  · split at h
    · cases h; exact hst
    · split at h
      · cases h
      · cases h
        split
        · refine pred_foldl _ _ _ hst ?_
          intro a ha
          exact (List.mem_filter.mp ha).2
        · exact hst

lemma dueOK_methodB :
    ∀ (cs : List Course) (st st₂ : DState), methodB st cs = .ok st₂ →
      (∀ x ∈ st.items, truthyStr x.due_at = true) →
      ∀ x ∈ st₂.items, truthyStr x.due_at = true := by
  intro cs
  induction cs with
  | nil =>
      intro st st₂ h hst
      simp only [methodB] at h
      cases h
      exact hst
  | cons c rest ih =>
      intro st st₂ h hst
      simp only [methodB] at h
      split at h
      · cases h
      · rename_i st₃ hstep
        exact ih _ _ h (dueOK_courseStep hstep hst)

/-- A record of method 2 without a due date, inside an active course. -/
def noDueAssignment : RawAssignment := ⟨some "HW 1".data, none, none, none, none⟩

def noDueCourse : Course := ⟨true, none, some "C1".data, .ok 200 [noDueAssignment]⟩

/-- Claim C7, counterexample: a method-B record with an absent `due_at`
is dropped by the `continue` on line 151 and never appears in the
collector output. -/
theorem C7_no_due_dropped :
    noDueAssignment.due_at = none ∧
      get_canvas_all_items (.ok 200 []) (.ok 200 [noDueCourse]) = [] := by
  decide

/-- Claim C7, amended: the per-course enumeration (method B) retains only
records with a truthy `due_at` — records missing a deadline are skipped
there — while the planner view (method A) retains its records even when
`plannable_date` is absent. -/
theorem C7_methodB_requires_due :
    (∀ courses : List Course,
        (get_canvas_all_items (.ok 200 []) (.ok 200 courses)).all
          (fun it => truthyStr it.due_at) = true) ∧
      (∀ p : PlannerItem,
        get_canvas_all_items (.ok 200 [p]) (.ok 200 []) = [plannerToItem p]) := by
  constructor
  · intro courses
    rw [List.all_eq_true]
    intro it
    unfold get_canvas_all_items
    have hempty : plannerPhase 200 [] ⟨[], []⟩ = ⟨[], []⟩ := rfl
    cases hmb : methodB (plannerPhase 200 [] ⟨[], []⟩) courses with
    | error e => simp [hmb, Except.map, catchEmpty]
    | ok st₂ =>
        simp only [hmb, Except.map, catchEmpty, if_pos rfl]
        intro hmem
        have := dueOK_methodB courses _ _ hmb (by rw [hempty]; intro x hx; simp at hx)
        simpa using this it hmem
  · intro p
    simp [get_canvas_all_items, catchEmpty, methodB, plannerPhase, addIfNew, Except.map]

/-- A planner record mirroring the end-to-end scenario of the spec. -/
def essayPlanner : PlannerItem :=
  ⟨some "Essay 1".data, some "2026-02-01T23:59:00Z".data, some 10,
   some "MGMT 311".data, none, none⟩

/-- A processable course whose assignments call raises. -/
def exnCourse : Course := ⟨true, none, some "C1".data, .exn⟩

/-- Claim C8, counterexample: with one planner record already gathered, a
raised assignments call for one course makes the instance return the
empty list — the same inputs without the raising course keep the planner
record — so partial results from the other retrieval method of the same
instance are lost, not returned. -/
theorem C8_exception_discards_partial :
    get_canvas_all_items (.ok 200 [essayPlanner]) (.ok 200 [exnCourse]) = [] ∧
      get_canvas_all_items (.ok 200 [essayPlanner]) (.ok 200 [])
        = [plannerToItem essayPlanner] := by
  decide

/-- Claim C8, amended: a non-2xx response degrades only its own sub-call
(a non-200 planner response behaves like an empty planner view, a non-200
assignments response leaves that course out), and instances stay
isolated from one another; but a raised error in any sub-call of an
instance empties that whole instance, discarding the partial results of
its other retrieval method. -/
theorem C8_failure_policy :
    (∀ courses : Resp (List Course), get_canvas_all_items .exn courses = []) ∧
      (∀ planner : Resp (List PlannerItem), get_canvas_all_items planner .exn = []) ∧
      (∀ (pbody : List PlannerItem) (nm : Option Str) (rest : List Course),
        get_canvas_all_items (.ok 200 pbody)
          (.ok 200 (⟨true, none, nm, .exn⟩ :: rest)) = []) ∧
      (∀ (s : Nat) (pbody : List PlannerItem) (courses : Resp (List Course)),
        s ≠ 200 →
          get_canvas_all_items (.ok s pbody) courses
            = get_canvas_all_items (.ok 200 []) courses) ∧
      (∀ (planner : Resp (List PlannerItem)) (hid : Bool) (ws nm : Option Str)
          (s : Nat) (body : List RawAssignment) (rest : List Course), s ≠ 200 →
        get_canvas_all_items planner (.ok 200 (⟨hid, ws, nm, .ok s body⟩ :: rest))
          = get_canvas_all_items planner (.ok 200 rest)) ∧
      (∀ (i : CanvasInstance) (instances : List CanvasInstance),
        collect_all (i :: instances)
          = get_canvas_all_items i.planner i.courses ++ collect_all instances) := by
  refine ⟨?_, ?_, ?_, ?_, ?_, ?_⟩
  · intro courses
    rfl
  · intro planner
    cases planner <;> rfl
  · intro pbody nm rest
    have hmem : ¬ ((Option.getD (none : Option Str) [])
        ∈ ["completed".data, "deleted".data]) := by decide
    simp [get_canvas_all_items, methodB, courseStep, catchEmpty, hmem, Except.map]
  · intro s pbody courses hs
    cases courses with
    | exn => rfl
    | ok cstatus cbody =>
        have h : plannerPhase s pbody ⟨[], []⟩ = plannerPhase 200 [] ⟨[], []⟩ := by
          unfold plannerPhase
          simp [hs]
        simp only [get_canvas_all_items, h]
  · intro planner hid ws nm s body rest hs
    cases planner with
    | exn => rfl
    | ok ps pb =>
        have hstep : ∀ st : DState,
            courseStep st ⟨hid, ws, nm, .ok s body⟩ = .ok st := by
          intro st
          unfold courseStep
          split
          · rfl
          · split
            · rfl
            · simp [hs]
        simp only [get_canvas_all_items, methodB, hstep]
  · intro i instances
    unfold collect_all
    rw [List.foldl_cons, collect_all_eq instances, collect_all_eq instances]
    simp

lemma mem_insertByDue (a t : TItem) :
    ∀ l : List TItem, a ∈ insertByDue t l ↔ a = t ∨ a ∈ l := by
  intro l
  induction l with
  | nil => simp [insertByDue]
  | cons h rest ih =>
      unfold insertByDue
      split
      · simp only [List.mem_cons, ih]
        tauto
      · simp only [List.mem_cons]

lemma mem_sortByDue (a : TItem) :
    ∀ l : List TItem, a ∈ sortByDue l ↔ a ∈ l := by
  intro l
  induction l with
  | nil => simp [sortByDue]
  | cons h rest ih =>
      unfold sortByDue at *
      simp only [List.foldr_cons, mem_insertByDue, ih, List.mem_cons]

lemma parseCanvasDate_nil : parseCanvasDate [] = none := rfl

lemma dueFilterStep_eq_some {now : Int} {b : Item} {t : TItem}
    (h : dueFilterStep now b = some t) :
    t.item = b ∧ ∃ sb, b.due_at = some sb ∧
      parseCanvasDate sb = some t.due_parsed ∧
      now ≤ t.due_parsed ∧ t.due_parsed ≤ now + windowSeconds := by
  unfold dueFilterStep at h
  split at h
  · cases h
  · rename_i sb hdue
    split at h
    · cases h
    · split at h
      · cases h
      · rename_i dv hp
        split at h
        · cases h
        · split at h
          · cases h
            rename_i hlt hle
            exact ⟨rfl, sb, hdue, hp, le_of_not_lt hlt, hle⟩
          · cases h

/-- Claim C2: for an item whose present due string parses to the instant
d, membership in the classifier output is exactly `now ≤ d` and
`d ≤ now + 3d12h` — one inclusive cutoff instant, not a calendar-day
boundary: due exactly at `now` is kept, due exactly at the cutoff is
kept, due strictly before `now` is dropped. -/
theorem C2_window_boundary (now : Int) (assignments : List Item) (a : Item)
    (s : Str) (d : Int) (hmem : a ∈ assignments) (hdue : a.due_at = some s)
    (hparse : parseCanvasDate s = some d) :
    (⟨a, d⟩ : TItem) ∈ filter_due_next_3_days now assignments
      ↔ (now ≤ d ∧ d ≤ now + windowSeconds) := by
  unfold filter_due_next_3_days
  rw [mem_sortByDue, List.mem_filterMap]
  constructor
  · rintro ⟨b, _, hfb⟩
    obtain ⟨hitem, sb, hdueb, hpb, h₁, h₂⟩ := dueFilterStep_eq_some hfb
    exact ⟨h₁, h₂⟩
  · rintro ⟨h₁, h₂⟩
    refine ⟨a, hmem, ?_⟩
    have hne : ¬ s.isEmpty = true := by
      cases s with
      | nil => rw [parseCanvasDate_nil] at hparse; cases hparse
      | cons c cs => simp
    unfold dueFilterStep
    rw [hdue]
    dsimp only
    rw [if_neg hne, hparse]
    dsimp only
    rw [if_neg (not_lt.mpr h₁), if_pos h₂]

/-- A concrete record due ten seconds after the epoch. -/
def tenSecItem : Item := ⟨"HW".data, some "1970-01-01T00:00:10Z".data, 0, [], [], []⟩

/-- Witness for C2 at `now = 0` with a due instant of 10 seconds. -/
theorem C2_window_boundary_witness :
    (⟨tenSecItem, 10⟩ : TItem) ∈ filter_due_next_3_days 0 [tenSecItem]
      ↔ ((0:Int) ≤ 10 ∧ (10:Int) ≤ 0 + windowSeconds) :=
  C2_window_boundary 0 [tenSecItem] tenSecItem "1970-01-01T00:00:10Z".data 10
    (by decide) rfl (by decide)

/-- Claim C9: an item whose due string does not parse under the fixed
format is removed and the remaining items are classified exactly as if
the malformed item had not been there; the loop body is total, so no
exception escapes this stage. -/
theorem C9_unparsable_dropped (now : Int) (pre post : List Item) (a : Item)
    (s : Str) (hdue : a.due_at = some s) (hbad : parseCanvasDate s = none) :
    filter_due_next_3_days now (pre ++ a :: post)
      = filter_due_next_3_days now (pre ++ post) := by
  have hstep : dueFilterStep now a = none := by
    unfold dueFilterStep
    rw [hdue]
    dsimp only
    split
    · rfl
    · rw [hbad]
  unfold filter_due_next_3_days
  rw [List.filterMap_append, List.filterMap_append, List.filterMap_cons, hstep]

/-- A concrete record with a malformed due string. -/
def badDateItem : Item := ⟨"HW".data, some "tomorrow".data, 0, [], [], []⟩

/-- Witness for C9: dropping the malformed record changes nothing. -/
theorem C9_unparsable_dropped_witness :
    filter_due_next_3_days 0 ([tenSecItem] ++ badDateItem :: [])
      = filter_due_next_3_days 0 ([tenSecItem] ++ []) :=
  C9_unparsable_dropped 0 [tenSecItem] [] badDateItem "tomorrow".data rfl (by decide)

lemma modules_ok200 (E : Int) (mods : List ContentModule) :
    get_modules_before_exam E (.ok 200 mods) = mods.filter (moduleIncluded E) := by
  simp [get_modules_before_exam]

/-- Claim C3: a denylisted container name excludes the container
regardless of any timestamp; otherwise a container with a parseable
unlock instant is included exactly when that instant is strictly before
the cutoff instant; otherwise a container with no unlock timestamp is
included exactly when its name carries a week/chapter/module marker
(and is excluded when it carries none). -/
theorem C3_curation_policy :
    (∀ (E : Int) (mods : List ContentModule) (m : ContentModule),
        denylistedName m = true → m ∉ get_modules_before_exam E (.ok 200 mods)) ∧
      (∀ (E : Int) (mods : List ContentModule) (m : ContentModule) (s : Str) (d : Int),
        m ∈ mods → denylistedName m = false → m.unlock_at = some s →
          parseCanvasDate s = some d →
          (m ∈ get_modules_before_exam E (.ok 200 mods) ↔ d < E)) ∧
      (∀ (E : Int) (mods : List ContentModule) (m : ContentModule),
        m ∈ mods → denylistedName m = false → m.unlock_at = none →
          (m ∈ get_modules_before_exam E (.ok 200 mods) ↔ hasWeekMarker m = true)) := by
  refine ⟨?_, ?_, ?_⟩
  · intro E mods m hden hmem
    rw [modules_ok200, List.mem_filter] at hmem
    simp [moduleIncluded, hden] at hmem
  · intro E mods m s d hmem hden hunlock hparse
    have hne : ¬ s.isEmpty = true := by
      cases s with
      | nil => rw [parseCanvasDate_nil] at hparse; cases hparse
      | cons c cs => simp
    have hincl : moduleIncluded E m = decide (d < E) := by
      unfold moduleIncluded
      rw [hden, hunlock]
      simp only [Bool.false_eq_true, if_false, truthyStr, Option.getD_some]
      rw [if_pos (by simpa using hne), hparse]
    rw [modules_ok200, List.mem_filter, hincl]
    simp [hmem]
  · intro E mods m hmem hden hunlock
    have hincl : moduleIncluded E m = hasWeekMarker m := by
      unfold moduleIncluded
      rw [hden, hunlock]
      simp [truthyStr]
    rw [modules_ok200, List.mem_filter, hincl]
    simp [hmem]

/-- A module whose unlock timestamp is present but the empty string, and
whose name carries a week marker. -/
def emptyUnlockModule : ContentModule := ⟨some "Week 1".data, some [], []⟩

/-- Claim C10, counterexample: a present-but-empty unlock string fails to
parse, yet the container is included through the name-marker fallback,
because the truthiness test `if unlock_at:` routes the empty string to
the no-timestamp branch. -/
theorem C10_empty_string_fallback :
    emptyUnlockModule.unlock_at = some [] ∧ parseCanvasDate [] = none ∧
      emptyUnlockModule ∈ get_modules_before_exam 0 (.ok 200 [emptyUnlockModule]) := by
  decide

/-- Claim C10, amended: a present non-empty unlock string that fails to
parse excludes the container entirely (the marker fallback is not
consulted); the fallback applies exactly when the unlock timestamp is
absent or the empty string. -/
theorem C10_malformed_excluded :
    (∀ (E : Int) (mods : List ContentModule) (m : ContentModule) (s : Str),
        m.unlock_at = some s → s ≠ [] → parseCanvasDate s = none →
          m ∉ get_modules_before_exam E (.ok 200 mods)) ∧
      (∀ (E : Int) (m : ContentModule),
        denylistedName m = false → m.unlock_at = some [] →
          (moduleIncluded E m = true ↔ hasWeekMarker m = true)) := by
  constructor
  · intro E mods m s hunlock hne hbad hmem
    rw [modules_ok200, List.mem_filter] at hmem
    have hincl : moduleIncluded E m = false := by
      unfold moduleIncluded
      split
      · rfl
      · rw [if_pos (by simp [truthyStr, hunlock, hne])]
        rw [hunlock]
        simp only [Option.getD_some]
        rw [hbad]
    rw [hincl] at hmem
    exact absurd hmem.2 (by simp)
  · intro E m hden hunlock
    have hincl : moduleIncluded E m = hasWeekMarker m := by
      unfold moduleIncluded
      rw [hden, hunlock]
      simp [truthyStr]
    rw [hincl]

/-- Claim C5: the importance classifier is the pure disjunction of the
three rules, case-insensitively — a fixed-phrase hit in the name, the
word exam in the name with at least 50 points, or a proctoring-tool
indicator in the description; every other item is not major. -/
theorem C5_major_classifier (a : Item) :
    is_major_test a = true ↔
      ((substrB "midterm".data (toLowerStr a.name) = true
          ∨ substrB "final exam".data (toLowerStr a.name) = true
          ∨ substrB "final test".data (toLowerStr a.name) = true
          ∨ substrB "midterm exam".data (toLowerStr a.name) = true)
        ∨ (substrB "exam".data (toLowerStr a.name) = true ∧ a.points_possible ≥ 50)
        ∨ (substrB "respondus".data (toLowerStr a.description) = true
          ∨ substrB "lockdown browser".data (toLowerStr a.description) = true)) := by
  simp only [is_major_test, major_keywords, List.any_cons, List.any_nil, Bool.or_false]
  split
  · rename_i h
    simp only [true_iff]
    left
    simpa [Bool.or_eq_true] using h
  · rename_i h
    split
    · rename_i h₂
      simp only [true_iff]
      right; left
      simpa [Bool.and_eq_true, decide_eq_true_iff] using h₂
    · rename_i h₂
      split
      · rename_i h₃
        simp only [true_iff]
        right; right
        simpa [Bool.or_eq_true] using h₃
      · rename_i h₃
        simp only [Bool.false_eq_true, false_iff]
        intro hc
        rcases hc with (hc | hc | hc | hc) | ⟨he, hp⟩ | (hc | hc)
        · exact h (by simp [hc])
        · exact h (by simp [hc])
        · exact h (by simp [hc])
        · exact h (by simp [hc])
        · exact h₂ (by rw [he, Bool.true_and, decide_eq_true_iff]; exact hp)
        · exact h₃ (by simp [hc])
        · exact h₃ (by simp [hc])

/-- A Page item whose fetch succeeds with a fixed body. -/
def dupPage : ModuleItem :=
  ⟨some "Page".data, some "Mitosis".data, some "u1".data, none, none,
   .ok 200 (some "Mitosis".data, some "Cells divide.".data), .exn, .exn⟩

/-- An included module listing the same page twice. -/
def dupModule : ContentModule := ⟨some "Week 1".data, none, [dupPage, dupPage]⟩

/-- Claim C6, counterexample: two retrieved ContentItems with identical
cleaned text (hence an identical first 100 characters) are both retained
in the curation output — `get_all_content_before_exam` applies no
content-prefix deduplication. -/
theorem C6_curation_keeps_duplicate :
    (get_all_content_before_exam 0 (.ok 200 [dupModule])).map (fun c => c.content)
        = ["Cells divide.".data, "Cells divide.".data] ∧
      (get_all_content_before_exam 0 (.ok 200 [dupModule])).length = 2 := by
  decide

/-- Claim C6, amended: the first-100-characters first-wins deduplication
lives only in the quiz-question collection (`get_quiz_questions`): a
question whose cleaned text agrees on its first 100 characters with an
already-retained entry is dropped there; the page/assignment/discussion
curation output performs no such deduplication and retains later items
with an identical cleaned-text prefix. -/
theorem C6_dedup_only_for_quiz_questions :
    (∀ (qt : Str) (att : Int) (acc : List QEntry) (q : RawQuestion),
        (acc.any fun e =>
          e.question.take 100 == (clean_html (q.question_text.getD [])).take 100) = true →
        addQuestion qt att acc q = acc) ∧
      ((get_all_content_before_exam 0 (.ok 200 [dupModule])).map (fun c => c.content)
        = ["Cells divide.".data, "Cells divide.".data]) := by
  constructor
  · intro qt att acc q hany
    simp [addQuestion, hany]
  · decide
